import Mathlib

/-!
ESP32 LED controller over MQTT: the handlers of Q1/main.c and Q2/main.c

A shallow embedding of the MQTT event handlers of the two firmware programs.

* Bytes are natural numbers; a C string is the run of bytes before the first
  zero byte of a memory region.
* The receive memory of an event is a list of bytes; `event->topic` and
  `event->data` are addresses (indices) into it.  Reading past the end of the
  modelled memory, dereferencing a null pointer and writing past the end of a
  local array are faults.
* Local arrays live outside the receive memory.  The array `data` of
  `authenticate` is not initialised by the program, so its prior contents are
  an explicit argument of the model.
* The target is the ESP32, a 32-bit machine: `sizeof (char *)` is 4, so
  `char *topic[50]` has 200 bytes and `char *data[10]` has 40 bytes.
* The library calls `esp_mqtt_client_publish (client, topic, data, len, qos,
  retain)`, `esp_mqtt_client_subscribe (client, topic, qos)`, `gpio_config` and
  `gpio_set_level` are recorded, in order, as effects.  Console output
  (`printf`, `ESP_LOGI`) is not modelled.
-/

/-- The bytes of a string literal. -/
def bytes (s : String) : List Nat := s.toList.map Char.toNat

/-- Undefined operations that the handlers can reach. -/
inductive Fault where
  /-- A null pointer is passed to a string function. -/
  | null_deref
  /-- A read runs past the end of the modelled memory region. -/
  | out_of_bounds
  /-- A write runs past the end of a local array. -/
  | overflow
  deriving DecidableEq, Repr

deriving instance DecidableEq for Except

/-- Calls into the MQTT client and the GPIO driver, as observed from outside. -/
inductive Effect where
  /-- Call `esp_mqtt_client_subscribe (client, topic, qos)`. -/
  | subscribe (topic : List Nat) (qos : Nat)
  /-- Call `esp_mqtt_client_publish (client, topic, data, len, qos, retain)`. -/
  | publish (topic data : List Nat) (len qos retain : Nat)
  /-- Call `gpio_config` with the given pin bit mask (output mode, no pulls). -/
  | gpio_config (pin_bit_mask : Nat)
  /-- Call `gpio_set_level (pin, level)`. -/
  | gpio_set_level (pin level : Nat)
  deriving DecidableEq, Repr

/-- The device as seen by the handlers: the output level of the LED pin and the
calls made so far, oldest first. -/
structure Device where
  level : Nat
  effects : List Effect
  deriving DecidableEq, Repr

/-- The fields of `esp_mqtt_event_t` that the handlers read, together with the
receive memory the two pointers point into. -/
structure Event where
  mem : List Nat
  topic : Nat
  topic_len : Nat
  data : Nat
  data_len : Nat
  deriving DecidableEq, Repr

/-! C string functions -/

/-- The C string at the start of a region: the bytes before the first zero
byte; `none` when the region holds no zero byte. -/
def c_str : List Nat → Option (List Nat)
  | [] => none
  | b :: bs => if b = 0 then some [] else (c_str bs).map (fun t => b :: t)

/-- The bytes `strncpy (dest, src, n)` writes to `dest`: the bytes of `src` up
to its first zero byte, then zero bytes up to `n` bytes in all; no terminator
is added when `src` has no zero byte among its first `n` bytes.  `none` when
the read runs past the region. -/
def strncpy : List Nat → Nat → Option (List Nat)
  | _, 0 => some []
  | [], _ + 1 => none
  | b :: bs, n + 1 =>
    if b = 0 then some (List.replicate (n + 1) 0)
    else (strncpy bs n).map (fun t => b :: t)

/-- The length `strspn (s, delim)` of the leading run of delimiter bytes. -/
def strspn (delim : List Nat) : List Nat → Option Nat
  | [] => none
  | b :: bs =>
    if b = 0 then some 0
    else if b ∈ delim then (strspn delim bs).map (fun k => k + 1)
    else some 0

/-- The length `strcspn (s, delim)` of the leading run of bytes that are
neither a delimiter nor the terminator. -/
def strcspn (delim : List Nat) : List Nat → Option Nat
  | [] => none
  | b :: bs =>
    if b = 0 then some 0
    else if b ∈ delim then some 0
    else (strcspn delim bs).map (fun k => k + 1)

/-- The result of one `strtok` call: the returned pointer (`none` is NULL), the
memory after the call, and the saved position for the next call. -/
structure Tok where
  ret : Option Nat
  mem : List Nat
  save : Nat
  deriving DecidableEq, Repr

/-- The call `strtok (str, delim)` on memory `m`, with `save` the position kept
by the previous call; `str = none` is the call `strtok (NULL, delim)`.
Leading delimiters are skipped; at the terminator there is no token and NULL
is returned; otherwise the token runs up to the next delimiter, which is
overwritten by a zero byte, or up to the terminator. -/
def strtok (m : List Nat) (save : Nat) (str : Option Nat) (delim : List Nat) :
    Except Fault Tok :=
  let p0 := str.getD save
  match strspn delim (m.drop p0) with
  | none => .error .out_of_bounds
  | some k =>
    let p := p0 + k
    if m.getD p 0 = 0 then .ok ⟨none, m, p⟩
    else
      match strcspn delim (m.drop p) with
      | none => .error .out_of_bounds
      | some n =>
        let q := p + n
        if m.getD q 0 = 0 then .ok ⟨some p, m, q⟩
        else .ok ⟨some p, m.set q 0, q + 1⟩

/-- The call `strcpy (dest, src)` into a local array of `size` bytes: the
string held by the array afterwards. -/
def strcpy (size : Nat) (src : List Nat) : Except Fault (List Nat) :=
  if src.length + 1 ≤ size then .ok src else .error .overflow

/-- The call `strcat (dest, src)` on a local array of `size` bytes that holds
the string `cur`: the string held by the array afterwards. -/
def strcat (size : Nat) (cur src : List Nat) : Except Fault (List Nat) :=
  if cur.length + src.length + 1 ≤ size then .ok (cur ++ src) else .error .overflow

/-- The contents of a local array of `size` bytes whose prior contents are
`uninit 0, uninit 1, ...` after `strncpy` wrote the bytes `w` at its start. -/
def local_array (uninit : Nat → Nat) (size : Nat) (w : List Nat) : List Nat :=
  w ++ ((List.range size).map uninit).drop w.length

namespace Q2

/-- The macro LED_PIN, GPIO_NUM_2. -/
def LED_PIN : Nat := 2

/-- The constant my_num of authenticate. -/
def my_num : List Nat := bytes "99101608"

/-- The topic of the acknowledgement. -/
def response_topic : List Nat := bytes "SIOT/99101608/response"

/-- The payload of the rejection. -/
def permission_error : List Nat :=
  bytes "ERROR:Your client doesn\x27t have permission to control the LED!"

/-- Bytes of `sizeof (char *)` on the ESP32. -/
def sizeof_ptr : Nat := 4

/-- The function control_LED, given the C string its argument points to:
configure the pin, then set the level to 1 on "ON", to 0 on "OFF", and leave
it alone otherwise. -/
def control_LED (data : List Nat) (s : Device) : Device :=
  let s1 : Device := { s with effects := s.effects ++ [Effect.gpio_config (1 <<< LED_PIN)] }
  if data = bytes "ON" then
    { level := 1, effects := s1.effects ++ [Effect.gpio_set_level LED_PIN 1] }
  else if data = bytes "OFF" then
    { level := 0, effects := s1.effects ++ [Effect.gpio_set_level LED_PIN 0] }
  else s1

/-- The function authenticate.  `uninit` gives the prior contents of the local
array `data`. -/
def authenticate (uninit : Nat → Nat) (e : Event) (s : Device) : Except Fault Device := do
  -- char *token = strtok(event->topic, "/");
  let t1 ← strtok e.mem 0 (some e.topic) (bytes "/")
  -- char *stu_num = strtok(NULL, "/");
  let t2 ← strtok t1.mem t1.save none (bytes "/")
  let stu_num := t2.ret
  -- char *topic[50]; strncpy(topic, event->topic, event->topic_len);
  if 50 * sizeof_ptr < e.topic_len then throw Fault.overflow
  let _ ← (strncpy (t2.mem.drop e.topic) e.topic_len).elim
            (Except.error Fault.out_of_bounds) Except.ok
  -- char *data[10]; strncpy(data, event->data, event->data_len);
  if 10 * sizeof_ptr < e.data_len then throw Fault.overflow
  let w ← (strncpy (t2.mem.drop e.data) e.data_len).elim
            (Except.error Fault.out_of_bounds) Except.ok
  let data := local_array uninit (10 * sizeof_ptr) w
  -- if (strcmp(my_num, stu_num) == 0)
  match stu_num with
  | none => throw Fault.null_deref
  | some p =>
    let stu ← (c_str (t2.mem.drop p)).elim (Except.error Fault.out_of_bounds) Except.ok
    if my_num = stu then
      -- esp_mqtt_client_publish(event->client, "SIOT/99101608/response", data, 0, 1, 0);
      let payload ← (c_str data).elim (Except.error Fault.out_of_bounds) Except.ok
      let s1 : Device :=
        { s with effects := s.effects ++ [Effect.publish response_topic payload 0 1 0] }
      -- control_LED(data);
      pure (control_LED payload s1)
    else
      -- char topic_response[100]; strcpy, strcat, strcat
      let r1 ← strcpy 100 (bytes "SIOT/")
      let r2 ← strcat 100 r1 stu
      let r3 ← strcat 100 r2 (bytes "/response")
      -- esp_mqtt_client_publish(event->client, topic_response, "ERROR:...", 0, 1, 0);
      pure { s with effects := s.effects ++ [Effect.publish r3 permission_error 0 1 0] }

/-- The part of authenticate from the copy of the payload on (lines 161 to
181), as a function of the C string `stu` that stu_num points to and of the
region `src` that event->data points to.  The proofs reduce authenticate to
it once the two strtok calls are resolved. -/
def respond (uninit : Nat → Nat) (stu src : List Nat) (data_len : Nat) (s : Device) :
    Except Fault Device := do
  if 10 * sizeof_ptr < data_len then throw Fault.overflow
  let w ← (strncpy src data_len).elim (Except.error Fault.out_of_bounds) Except.ok
  let data := local_array uninit (10 * sizeof_ptr) w
  if my_num = stu then
    let payload ← (c_str data).elim (Except.error Fault.out_of_bounds) Except.ok
    let s1 : Device :=
      { s with effects := s.effects ++ [Effect.publish response_topic payload 0 1 0] }
    pure (control_LED payload s1)
  else
    let r1 ← strcpy 100 (bytes "SIOT/")
    let r2 ← strcat 100 r1 stu
    let r3 ← strcat 100 r2 (bytes "/response")
    pure { s with effects := s.effects ++ [Effect.publish r3 permission_error 0 1 0] }

/-- The values of event->event_id that the handlers distinguish. -/
inductive EventId where
  | MQTT_EVENT_ERROR
  | MQTT_EVENT_CONNECTED
  | MQTT_EVENT_DISCONNECTED
  | MQTT_EVENT_SUBSCRIBED
  | MQTT_EVENT_UNSUBSCRIBED
  | MQTT_EVENT_PUBLISHED
  | MQTT_EVENT_DATA
  | other (id : Int)
  deriving DecidableEq, Repr

/-- The function mqtt_event_handler_cb of Q2/main.c. -/
def mqtt_event_handler_cb (uninit : Nat → Nat) (id : EventId) (e : Event) (s : Device) :
    Except Fault Device :=
  match id with
  | .MQTT_EVENT_CONNECTED =>
    -- esp_mqtt_client_subscribe(client, "SIOT/+/LED", 0);
    .ok { s with effects := s.effects ++ [Effect.subscribe (bytes "SIOT/+/LED") 0] }
  | .MQTT_EVENT_DATA => authenticate uninit e s
  | _ => .ok s

end Q2

namespace Q1

/-- The greeting published by Q1/main.c. -/
def greeting : List Nat :=
  bytes "Hello! This is Melika with 99101608, Enjoying HW3 of SIOT course :))"

/-- The function mqtt_event_handler_cb of Q1/main.c. -/
def mqtt_event_handler_cb (id : Q2.EventId) (s : Device) : Device :=
  match id with
  | .MQTT_EVENT_CONNECTED =>
    -- esp_mqtt_client_subscribe(client, "SIoT", 0);
    -- esp_mqtt_client_publish(client, "SIoT", "Hello! ...", 0, 1, 0);
    { s with effects := s.effects ++
        [Effect.subscribe (bytes "SIoT") 0, Effect.publish (bytes "SIoT") greeting 0 1 0] }
  | _ => s

end Q1

/-! Vocabulary of the statements -/

/-- The bytes of a payload before its first zero byte: the payload read as a C
string. -/
def c_cut : List Nat → List Nat
  | [] => []
  | b :: bs => if b = 0 then [] else b :: c_cut bs

/-- The copy of the payload `P` in the 40-byte local array is terminated: the
payload holds a zero byte, or it is shorter than the array and the byte of the
array right after it happened to be zero. -/
def terminated (uninit : Nat → Nat) (P : List Nat) : Prop :=
  0 ∈ P ∨ (P.length < 40 ∧ uninit P.length = 0)

instance (uninit : Nat → Nat) (P : List Nat) : Decidable (terminated uninit P) := by
  unfold terminated; infer_instance

/-- A token of a topic: a non-empty run of bytes free of the terminator and of
the delimiter. -/
def is_token (t : List Nat) : Prop := t ≠ [] ∧ ∀ b ∈ t, b ≠ 0 ∧ b ≠ 47

instance (t : List Nat) : Decidable (is_token t) := by
  unfold is_token; infer_instance

/-- Whether an effect is a call of gpio_set_level. -/
def is_set_level : Effect → Bool
  | .gpio_set_level _ _ => true
  | _ => false

/-- Whether an effect is a call of esp_mqtt_client_publish. -/
def is_publish : Effect → Bool
  | .publish _ _ _ _ _ => true
  | _ => false

/-- The first gpio_set_level call of a sequence of effects comes before its
first publish call. -/
def set_level_precedes_publish (l : List Effect) : Bool :=
  match l.findIdx? is_set_level, l.findIdx? is_publish with
  | some i, some j => decide (i < j)
  | _, _ => false

/-- Data events handled one after the other, each paired with the contents its
call finds in the local array `data`. -/
def handle_all : List ((Nat → Nat) × Event) → Device → Except Fault Device
  | [], s => .ok s
  | (g, e) :: rest, s =>
    match Q2.authenticate g e s with
    | .ok s1 => handle_all rest s1
    | .error f => .error f

/-! Concrete messages

In the receive memory of these messages the payload follows the topic. -/

/-- A local array that happens to hold zero bytes only. -/
def zeroed : Nat → Nat := fun _ => 0

/-- The contents of the 40-byte local array as left behind by a call that found
the contents `g` and copied the bytes `w` into it. -/
def left_by (g : Nat → Nat) (w : List Nat) : Nat → Nat :=
  fun i => (local_array g 40 w).getD i 0

/-- A local array that still holds the bytes of an earlier "OFF" command,
followed by zero bytes. -/
def stale_off : Nat → Nat := left_by zeroed (bytes "OFF")

/-- A message from the device identity with the given payload of declared
length `n`. -/
def own_message (payload : String) (n : Nat) : Event :=
  { mem := bytes "SIOT/99101608/LED" ++ bytes payload,
    topic := 0, topic_len := 17, data := 17, data_len := n }

/-- Scenario A: topic "SIOT/99101608/LED", payload "ON". -/
def scenario_A : Event := own_message "ON" 2

/-- Scenario B: topic "SIOT/12345678/LED", payload "ON". -/
def scenario_B : Event :=
  { mem := bytes "SIOT/12345678/LED" ++ bytes "ON",
    topic := 0, topic_len := 17, data := 17, data_len := 2 }

/-- A message whose topic string of declared length `len` is terminated by a
zero byte and is followed by the payload "ON". -/
def terminated_topic (topic : String) (len : Nat) : Event :=
  { mem := bytes topic ++ 0 :: bytes "ON",
    topic := 0, topic_len := len, data := len + 1, data_len := 2 }

/-! Lemmas on the string functions -/

theorem bytes_slash : bytes "/" = [47] := by decide

theorem strspn_run (a x : Nat) (R : List Nat) (hx : x ≠ 47) :
    strspn [47] (List.replicate a 47 ++ x :: R) = some a := by
  induction a with
  | zero => simp [strspn, hx]
  | succ n ih => simp [List.replicate_succ, strspn, ih]

theorem strcspn_run (tok : List Nat) (t : Nat) (R : List Nat)
    (htok : ∀ b ∈ tok, b ≠ 0 ∧ b ≠ 47) (ht : t = 0 ∨ t = 47) :
    strcspn [47] (tok ++ t :: R) = some tok.length := by
  induction tok with
  | nil => rcases ht with h | h <;> simp [strcspn, h]
  | cons b bs ih =>
    have hb := htok b (by simp)
    have ih2 := ih (fun x hx => htok x (by simp [hx]))
    simp [strcspn, hb.1, hb.2, ih2]

theorem c_str_run (tok R : List Nat) (htok : ∀ b ∈ tok, b ≠ 0) :
    c_str (tok ++ 0 :: R) = some tok := by
  induction tok with
  | nil => simp [c_str]
  | cons b bs ih =>
    have hb := htok b (by simp)
    have ih2 := ih (fun x hx => htok x (by simp [hx]))
    simp [c_str, hb, ih2]

theorem set_at_length (A B : List Nat) (x v : Nat) :
    (A ++ x :: B).set A.length v = A ++ v :: B := by
  induction A with
  | nil => simp
  | cons a A ih => simp [ih]

theorem getD_at_length (A B : List Nat) (x : Nat) :
    (A ++ x :: B).getD A.length 0 = x := by
  induction A with
  | nil => simp
  | cons a A ih => simpa using ih

theorem strncpy_of_zero_mem (s : List Nat) (n : Nat) (h : 0 ∈ s) :
    ∃ w, strncpy s n = some w := by
  induction s generalizing n with
  | nil => simp at h
  | cons b bs ih =>
    cases n with
    | zero => exact ⟨[], by simp [strncpy]⟩
    | succ n =>
      by_cases hb : b = 0
      · exact ⟨List.replicate (n + 1) 0, by simp [strncpy, hb]⟩
      · have h2 : 0 ∈ bs := by
          rcases List.mem_cons.mp h with h0 | h0
          · exact absurd h0.symm hb
          · exact h0
        obtain ⟨w, hw⟩ := ih n h2
        exact ⟨b :: w, by simp [strncpy, hb, hw]⟩

/-- One strtok call on a memory that holds, from the start position on, a run
of delimiters, a token and then a delimiter or the terminator. -/
theorem strtok_token (pre tok R : List Nat) (a t save : Nat) (str : Option Nat)
    (hp : str.getD save = pre.length) (htok : is_token tok) (ht : t = 0 ∨ t = 47) :
    strtok (pre ++ (List.replicate a 47 ++ (tok ++ t :: R))) save str [47]
      = .ok ⟨some (pre.length + a),
             pre ++ (List.replicate a 47 ++ (tok ++ 0 :: R)),
             pre.length + a + tok.length + (if t = 0 then 0 else 1)⟩ := by
  obtain ⟨hne, hall⟩ := htok
  obtain ⟨x, tl, rfl⟩ := List.exists_cons_of_ne_nil hne
  have hx := hall x (by simp)
  have hspn : strspn [47] (List.replicate a 47 ++ ((x :: tl) ++ t :: R)) = some a := by
    simpa using strspn_run a x (tl ++ t :: R) hx.2
  have hd1 : (pre ++ (List.replicate a 47 ++ ((x :: tl) ++ t :: R))).getD (pre.length + a) 0 = x := by
    have := getD_at_length (pre ++ List.replicate a 47) (tl ++ t :: R) x
    simpa using this
  have hdrop : (pre ++ (List.replicate a 47 ++ ((x :: tl) ++ t :: R))).drop (pre.length + a)
      = (x :: tl) ++ t :: R := by
    have := List.drop_left (pre ++ List.replicate a 47) ((x :: tl) ++ t :: R)
    simp
  have hcspn := strcspn_run (x :: tl) t R hall ht
  have hd2 : (pre ++ (List.replicate a 47 ++ ((x :: tl) ++ t :: R))).getD
      (pre.length + a + (x :: tl).length) 0 = t := by
    have := getD_at_length (pre ++ List.replicate a 47 ++ (x :: tl)) R t
    simpa [Nat.add_assoc] using this
  have hset : (pre ++ (List.replicate a 47 ++ ((x :: tl) ++ t :: R))).set
      (pre.length + a + (x :: tl).length) 0
      = pre ++ (List.replicate a 47 ++ ((x :: tl) ++ 0 :: R)) := by
    have := set_at_length (pre ++ List.replicate a 47 ++ (x :: tl)) R t 0
    simp [Nat.add_assoc]
  unfold strtok
  simp only [hp, List.drop_left, hspn, hd1, hdrop, hcspn, hd2, hset]
  rcases ht with h | h
  · subst h; simp [hx.1]
  · subst h; simp [hx.1]

theorem strncpy_of_le_length (s : List Nat) (n : Nat) (h : n ≤ s.length) :
    ∃ w, strncpy s n = some w := by
  induction s generalizing n with
  | nil =>
    have : n = 0 := by simpa using h
    subst this; exact ⟨[], by simp [strncpy]⟩
  | cons b bs ih =>
    cases n with
    | zero => exact ⟨[], by simp [strncpy]⟩
    | succ n =>
      by_cases hb : b = 0
      · exact ⟨List.replicate (n + 1) 0, by simp [strncpy, hb]⟩
      · obtain ⟨w, hw⟩ := ih n (by simpa using h)
        exact ⟨b :: w, by simp [strncpy, hb, hw]⟩

namespace Q2

/-- With a topic memory that holds a first token, delimiters, a second token
`c` and then a delimiter or the terminator, authenticate is respond at the
second token, reading the payload from the memory the two strtok calls leave
behind: a memory of the same length that agrees with the receive memory after
the second token. -/
theorem authenticate_tokens_any (g : Nat → Nat) (e : Event) (s : Device)
    (a b t : Nat) (ns c rest : List Nat)
    (h : e.mem.drop e.topic
      = List.replicate a 47 ++ (ns ++ 47 :: (List.replicate b 47 ++ (c ++ t :: rest))))
    (hns : is_token ns) (hc : is_token c) (ht : t = 0 ∨ t = 47) :
    ∃ m2 : List Nat, m2.length = e.mem.length
      ∧ (e.topic + a + ns.length + 1 + b + c.length < e.data
          → m2.drop e.data = e.mem.drop e.data)
      ∧ authenticate g e s
          = if 200 < e.topic_len then Except.error Fault.overflow
            else respond g c (m2.drop e.data) e.data_len s := by
  -- the memory, split at the topic pointer
  have hlt : e.topic < e.mem.length := by
    by_contra hcon
    have : e.mem.drop e.topic = [] := List.drop_eq_nil_of_le (Nat.le_of_not_lt hcon)
    rw [this] at h
    have := congrArg List.length h
    simp at this
    omega
  have hpre : (e.mem.take e.topic).length = e.topic := by
    simp [List.length_take]; omega
  have hmem : e.mem = e.mem.take e.topic
      ++ (List.replicate a 47 ++ (ns ++ 47 :: (List.replicate b 47 ++ (c ++ t :: rest)))) := by
    rw [← h, List.take_append_drop]
  generalize e.mem.take e.topic = pre at hpre hmem
  -- first call
  obtain ⟨pre2, hpre2⟩ : ∃ p2, p2 = pre ++ (List.replicate a 47 ++ (ns ++ [0])) := ⟨_, rfl⟩
  have hpre2len : pre2.length = e.topic + a + ns.length + 1 := by
    rw [hpre2]; simp [hpre]; omega
  have h1 : strtok e.mem 0 (some e.topic) [47]
      = .ok ⟨some (e.topic + a), pre2 ++ (List.replicate b 47 ++ (c ++ t :: rest)), pre2.length⟩ := by
    have := strtok_token pre ns (List.replicate b 47 ++ (c ++ t :: rest)) a 47 0
      (some e.topic) (by simp [hpre]) hns (Or.inr rfl)
    rw [hmem, this, hpre2len, hpre2, hpre]
    simp
  -- second call
  obtain ⟨m2, hm2⟩ : ∃ m, m = pre2 ++ (List.replicate b 47 ++ (c ++ 0 :: rest)) := ⟨_, rfl⟩
  have h2 : ∃ sv, strtok (pre2 ++ (List.replicate b 47 ++ (c ++ t :: rest))) pre2.length none [47]
      = .ok ⟨some (pre2.length + b), m2, sv⟩ := by
    have := strtok_token pre2 c rest b t pre2.length none (by simp) hc ht
    exact ⟨_, by rw [this, hm2]⟩
  -- the memory after both calls
  have hstu : c_str (m2.drop (pre2.length + b)) = some c := by
    have hdr := List.drop_left (pre2 ++ List.replicate b 47) (c ++ 0 :: rest)
    simp only [List.length_append, List.length_replicate, List.append_assoc] at hdr
    rw [hm2, hdr]
    exact c_str_run c rest (fun x hx => (hc.2 x hx).1)
  have htop : ∃ w, strncpy (m2.drop e.topic) e.topic_len = some w := by
    apply strncpy_of_zero_mem
    rw [hm2, hpre2, ← hpre]
    simp only [List.append_assoc, List.drop_left]
    simp
  have hlen2 : m2.length = e.mem.length := by
    rw [hm2, hpre2, hmem]; simp
  have hdata : e.topic + a + ns.length + 1 + b + c.length < e.data
      → m2.drop e.data = e.mem.drop e.data := by
    intro hd
    obtain ⟨k, hk⟩ : ∃ k, e.data = (pre2 ++ (List.replicate b 47 ++ c)).length + (1 + k) := by
      refine ⟨e.data - (e.topic + a + ns.length + 1 + b + c.length) - 1, ?_⟩
      simp [hpre2len]; omega
    have e1 : m2 = (pre2 ++ (List.replicate b 47 ++ c)) ++ ([0] ++ rest) := by
      rw [hm2]; simp
    obtain ⟨pre3, hpre3⟩ : ∃ p3, p3 = pre ++ (List.replicate a 47 ++ (ns ++ [47])) := ⟨_, rfl⟩
    have e2 : e.mem = (pre3 ++ (List.replicate b 47 ++ c)) ++ ([t] ++ rest) := by
      rw [hmem, hpre3]; simp
    have hl : (pre2 ++ (List.replicate b 47 ++ c)).length
        = (pre3 ++ (List.replicate b 47 ++ c)).length := by
      rw [hpre2, hpre3]; simp
    have hx : ∀ x : Nat, List.drop (1 + k) ([x] ++ rest) = rest.drop k := by
      intro x; rw [Nat.add_comm]; rfl
    rw [hk]
    conv => rhs; rw [e2, hl, List.drop_append, hx]
    conv => lhs; rw [e1, List.drop_append, hx]
  obtain ⟨w, hw⟩ := htop
  obtain ⟨sv, h2⟩ := h2
  refine ⟨m2, hlen2, hdata, ?_⟩
  unfold authenticate respond
  rw [bytes_slash, h1]
  simp only [bind, Except.bind]
  rw [h2]
  by_cases hover : 200 < e.topic_len
  · simp [sizeof_ptr, hover, bind, Except.bind, throw, throwThe, MonadExceptOf.throw]
  · simp [hstu, hw, sizeof_ptr, Option.elim, hover, bind, Except.bind, pure, Except.pure]

/-- The same within the bound of the local array that receives the topic. -/
theorem authenticate_tokens (g : Nat → Nat) (e : Event) (s : Device)
    (a b t : Nat) (ns c rest : List Nat)
    (h : e.mem.drop e.topic
      = List.replicate a 47 ++ (ns ++ 47 :: (List.replicate b 47 ++ (c ++ t :: rest))))
    (hns : is_token ns) (hc : is_token c) (ht : t = 0 ∨ t = 47)
    (htl : e.topic_len ≤ 200) :
    ∃ m2 : List Nat, m2.length = e.mem.length
      ∧ (e.topic + a + ns.length + 1 + b + c.length < e.data
          → m2.drop e.data = e.mem.drop e.data)
      ∧ authenticate g e s = respond g c (m2.drop e.data) e.data_len s := by
  obtain ⟨m2, h1, h2, h3⟩ := authenticate_tokens_any g e s a b t ns c rest h hns hc ht
  refine ⟨m2, h1, h2, ?_⟩
  rw [h3, if_neg (by omega)]

/-- When the payload is stored after the second token, authenticate is respond
on the payload as received. -/
theorem authenticate_eq_respond (g : Nat → Nat) (e : Event) (s : Device)
    (a b t : Nat) (ns c rest : List Nat)
    (h : e.mem.drop e.topic
      = List.replicate a 47 ++ (ns ++ 47 :: (List.replicate b 47 ++ (c ++ t :: rest))))
    (hns : is_token ns) (hc : is_token c) (ht : t = 0 ∨ t = 47)
    (htl : e.topic_len ≤ 200)
    (hd : e.topic + a + ns.length + 1 + b + c.length < e.data) :
    authenticate g e s = respond g c (e.mem.drop e.data) e.data_len s := by
  obtain ⟨m2, _, hdata, heq⟩ := authenticate_tokens g e s a b t ns c rest h hns hc ht htl
  rw [heq, hdata hd]

end Q2

theorem c_cut_no_zero (P : List Nat) : ∀ b ∈ c_cut P, b ≠ 0 := by
  induction P with
  | nil => simp [c_cut]
  | cons x xs ih =>
    by_cases hx : x = 0
    · simp [c_cut, hx]
    · intro b hb
      simp only [c_cut, hx, if_false, List.mem_cons] at hb
      rcases hb with h | h
      · rw [h]; exact hx
      · exact ih b h

theorem c_cut_of_no_zero (P : List Nat) (h : 0 ∉ P) : c_cut P = P := by
  induction P with
  | nil => simp [c_cut]
  | cons x xs ih =>
    have hx : x ≠ 0 := fun h0 => h (by simp [h0])
    have hxs : 0 ∉ xs := fun h0 => h (by simp [h0])
    simp [c_cut, hx, ih hxs]

theorem c_cut_length_lt (P : List Nat) (h : 0 ∈ P) : (c_cut P).length < P.length := by
  induction P with
  | nil => simp at h
  | cons x xs ih =>
    by_cases hx : x = 0
    · simp [c_cut, hx]
    · have hxs : 0 ∈ xs := by
        rcases List.mem_cons.mp h with h0 | h0
        · exact absurd h0.symm hx
        · exact h0
      simpa [c_cut, hx] using ih hxs

/-- The bytes written by the copy of a payload of declared length. -/
theorem strncpy_payload (P after : List Nat) :
    strncpy (P ++ after) P.length
      = some (c_cut P ++ List.replicate (P.length - (c_cut P).length) 0) := by
  induction P with
  | nil => simp [strncpy, c_cut]
  | cons x xs ih =>
    by_cases hx : x = 0
    · simp [strncpy, c_cut, hx]
    · simp [strncpy, c_cut, hx, ih]

/-- The C string held by the local array after a terminated copy is the payload
read as a C string. -/
theorem c_str_local_array (g : Nat → Nat) (P : List Nat) (hterm : terminated g P) :
    c_str (local_array g 40 (c_cut P ++ List.replicate (P.length - (c_cut P).length) 0))
      = some (c_cut P) := by
  unfold local_array
  rcases hterm with h0 | ⟨hlt, hg⟩
  · have hl := c_cut_length_lt P h0
    obtain ⟨k, hk⟩ : ∃ k, P.length - (c_cut P).length = k + 1 :=
      ⟨P.length - (c_cut P).length - 1, by omega⟩
    rw [hk, List.replicate_succ, List.append_assoc, List.cons_append]
    exact c_str_run _ _ (c_cut_no_zero P)
  · by_cases h0 : 0 ∈ P
    · have hl := c_cut_length_lt P h0
      obtain ⟨k, hk⟩ : ∃ k, P.length - (c_cut P).length = k + 1 :=
      ⟨P.length - (c_cut P).length - 1, by omega⟩
      rw [hk, List.replicate_succ, List.append_assoc, List.cons_append]
      exact c_str_run _ _ (c_cut_no_zero P)
    · have hc := c_cut_of_no_zero P h0
      rw [hc]
      simp only [Nat.sub_self, List.replicate_zero, List.append_nil]
      have hd : ((List.range 40).map g).drop P.length
          = g P.length :: ((List.range 40).map g).drop (P.length + 1) := by
        rw [List.drop_eq_getElem_cons (by simpa using hlt)]
        simp
      rw [hd, hg]
      exact c_str_run _ _ (fun b hb => fun hb0 => h0 (hb0 ▸ hb))

namespace Q2

/-- The mismatch branch of respond within the bounds of the local arrays. -/
theorem respond_reject (g : Nat → Nat) (c src : List Nat) (n : Nat) (s : Device)
    (hne : c ≠ my_num) (hclen : c.length ≤ 85) (hn : n ≤ 40)
    (hsrc : ∃ w, strncpy src n = some w) :
    respond g c src n s
      = .ok { level := s.level,
              effects := s.effects ++
                [Effect.publish (bytes "SIOT/" ++ c ++ bytes "/response") permission_error 0 1 0] } := by
  obtain ⟨w, hw⟩ := hsrc
  have hnot : ¬ (10 * 4 < n) := by omega
  have hne2 : ¬ (my_num = c) := fun h => hne h.symm
  have l1 : (bytes "SIOT/").length = 5 := by decide
  have l2 : (bytes "/response").length = 9 := by decide
  have hcat1 : 5 + c.length ≤ 99 := by omega
  have hcat2 : 5 + c.length ≤ 90 := by omega
  simp [respond, hw, sizeof_ptr, hnot, hne2, strcpy, strcat, l1, l2, hcat1, hcat2, Option.elim,
    bind, Except.bind, pure, Except.pure]

/-- The match branch of respond on a terminated copy of the payload. -/
theorem respond_accept (g : Nat → Nat) (P after : List Nat) (s : Device)
    (hlen : P.length ≤ 40) (hterm : terminated g P) :
    respond g my_num (P ++ after) P.length s
      = .ok (control_LED (c_cut P)
          { level := s.level,
            effects := s.effects ++ [Effect.publish response_topic (c_cut P) 0 1 0] }) := by
  have hnot : ¬ (10 * 4 < P.length) := by omega
  have hs := c_str_local_array g P hterm
  simp [respond, strncpy_payload, sizeof_ptr, hnot, hs, Option.elim,
    bind, Except.bind, pure, Except.pure]

end Q2

namespace Q2

/-- The match branch of authenticate: with the device identity as second token
and a terminated copy of the payload, the payload read as a C string is
published to the response topic and then handed to control_LED. -/
theorem authenticate_accept (g : Nat → Nat) (e : Event) (s : Device)
    (a b t : Nat) (ns rest P after : List Nat)
    (h : e.mem.drop e.topic
      = List.replicate a 47 ++ (ns ++ 47 :: (List.replicate b 47 ++ (my_num ++ t :: rest))))
    (hns : is_token ns) (ht : t = 0 ∨ t = 47) (htl : e.topic_len ≤ 200)
    (hd : e.topic + a + ns.length + 1 + b + my_num.length < e.data)
    (hP : e.mem.drop e.data = P ++ after) (hlen : e.data_len = P.length)
    (hP40 : P.length ≤ 40) (hterm : terminated g P) :
    authenticate g e s
      = .ok (control_LED (c_cut P)
          { level := s.level,
            effects := s.effects ++ [Effect.publish response_topic (c_cut P) 0 1 0] }) := by
  rw [authenticate_eq_respond g e s a b t ns my_num rest h hns (by decide) ht htl hd, hP, hlen]
  exact respond_accept g P after s hP40 hterm

/-- The mismatch branch of authenticate within the bounds of the local
arrays: one rejection is published and nothing else happens. -/
theorem authenticate_reject (g : Nat → Nat) (e : Event) (s : Device)
    (a b t : Nat) (ns c rest : List Nat)
    (h : e.mem.drop e.topic
      = List.replicate a 47 ++ (ns ++ 47 :: (List.replicate b 47 ++ (c ++ t :: rest))))
    (hns : is_token ns) (hc : is_token c) (ht : t = 0 ∨ t = 47) (htl : e.topic_len ≤ 200)
    (hne : c ≠ my_num) (hclen : c.length ≤ 85) (hdl : e.data_len ≤ 40)
    (hread : e.data + e.data_len ≤ e.mem.length) :
    authenticate g e s
      = .ok { level := s.level,
              effects := s.effects ++
                [Effect.publish (bytes "SIOT/" ++ c ++ bytes "/response") permission_error 0 1 0] } := by
  obtain ⟨m2, hlen2, _, heq⟩ := authenticate_tokens g e s a b t ns c rest h hns hc ht htl
  rw [heq]
  apply respond_reject g c _ _ s hne hclen hdl
  apply strncpy_of_le_length
  simp only [List.length_drop]
  omega

end Q2

/-! The claims -/

namespace Q2

/-- C1 (defect of the code): Scenario A, topic "SIOT/99101608/LED" with payload
"ON" of declared length 2, handled when the local array still holds the bytes
of an earlier "OFF".  The copy by strncpy is not terminated, so the handler
publishes "ONF" instead of "ON" and does not set the level. -/
theorem scenario_A_unterminated_copy :
    authenticate stale_off scenario_A { level := 0, effects := [] }
      = .ok { level := 0,
              effects := [Effect.publish (bytes "SIOT/99101608/response") (bytes "ONF") 0 1 0,
                          Effect.gpio_config 4] } := by
  decide

/-- C3 (defect of the code): malformed topics are not dropped.  On the
one-segment topic "SIOT" and on the empty topic the second strtok call returns
NULL and strcmp is called on it; on the two-segment topic "SIOT/LED" the
segment "LED" is taken for the claimant and a rejection is published to
"SIOT/LED/response". -/
theorem malformed_topic_outcomes :
    authenticate zeroed (terminated_topic "SIOT" 4) { level := 0, effects := [] }
      = .error Fault.null_deref
    ∧ authenticate zeroed (terminated_topic "" 0) { level := 0, effects := [] }
      = .error Fault.null_deref
    ∧ authenticate zeroed (terminated_topic "SIOT/LED" 8) { level := 0, effects := [] }
      = .ok { level := 0,
              effects := [Effect.publish (bytes "SIOT/LED/response") permission_error 0 1 0] } := by
  decide

/-- C4 (counterexample): in Scenario B the published payload is not the string
"ERROR: permission denied". -/
theorem scenario_B_payload_differs :
    authenticate zeroed scenario_B { level := 0, effects := [] }
      = .ok { level := 0,
              effects := [Effect.publish (bytes "SIOT/12345678/response") permission_error 0 1 0] }
    ∧ permission_error ≠ bytes "ERROR: permission denied" := by
  decide

/-- C4 (amended): Scenario B, topic "SIOT/12345678/LED" with payload "ON",
leaves the level as it was and makes exactly one call, a publish to
"SIOT/12345678/response" of the payload
the literal permission_error of the source ("ERROR:Your client ... to control
the LED!") with qos 1 and retain 0, whatever the local array held and whatever happened before. -/
theorem scenario_B_rejected (g : Nat → Nat) (s : Device) :
    authenticate g scenario_B s
      = .ok { level := s.level,
              effects := s.effects ++
                [Effect.publish (bytes "SIOT/12345678/response")
                  (bytes "ERROR:Your client doesn\x27t have permission to control the LED!") 0 1 0] } :=
  authenticate_reject g scenario_B s 0 0 47 (bytes "SIOT") (bytes "12345678") (bytes "LEDON")
    (by decide) (by decide) (by decide) (Or.inr rfl) (by decide) (by decide) (by decide)
    (by decide) (by decide)

end Q2

namespace Q2

/-- C5 (counterexample): the four-byte payload "ON", zero byte, "X" is neither
the two bytes "ON" nor the three bytes "OFF", yet it switches the level from 0
to 1 and is acknowledged as "ON". -/
theorem on_with_trailing_bytes_switches_on :
    bytes "ON\x00X" ≠ bytes "ON" ∧ bytes "ON\x00X" ≠ bytes "OFF"
    ∧ authenticate zeroed (own_message "ON\x00X" 4) { level := 0, effects := [] }
      = .ok { level := 1,
              effects := [Effect.publish (bytes "SIOT/99101608/response") (bytes "ON") 0 1 0,
                          Effect.gpio_config 4, Effect.gpio_set_level 2 1] } := by
  decide

/-- C5 (amended): for every message whose claimant token is the device
identity and whose payload, read as a C string (cut at its first zero byte),
is neither "ON" nor "OFF", the level after handling equals the level before;
the handler publishes that C string to the response topic and configures the
pin, and makes no other call.  This is stated for payloads of at most 40
bytes whose copy in the local array is terminated. -/
theorem unrecognized_command_keeps_level (g : Nat → Nat) (e : Event) (s : Device)
    (ns rest P after : List Nat)
    (htopic : e.mem.drop e.topic = ns ++ 47 :: (my_num ++ 47 :: rest))
    (hns : is_token ns) (htl : e.topic_len ≤ 200)
    (hd : e.topic + ns.length + 1 + my_num.length < e.data)
    (hP : e.mem.drop e.data = P ++ after) (hlen : e.data_len = P.length)
    (hP40 : P.length ≤ 40) (hterm : terminated g P)
    (hon : c_cut P ≠ bytes "ON") (hoff : c_cut P ≠ bytes "OFF") :
    authenticate g e s
      = .ok { level := s.level,
              effects := s.effects ++
                [Effect.publish response_topic (c_cut P) 0 1 0, Effect.gpio_config 4] } := by
  rw [authenticate_accept g e s 0 0 47 ns rest P after (by simpa using htopic) hns (Or.inr rfl)
    htl (by omega) hP hlen hP40 hterm]
  simp [control_LED, hon, hoff, LED_PIN]

/-- C5 (witness): the amended claim at the payload "ON" followed by a line
feed, from level 1. -/
theorem unrecognized_command_keeps_level_witness :
    authenticate zeroed (own_message "ON\n" 3) { level := 1, effects := [] }
      = .ok { level := 1,
              effects := [] ++
                [Effect.publish response_topic (c_cut (bytes "ON\n")) 0 1 0, Effect.gpio_config 4] } :=
  unrecognized_command_keeps_level zeroed _ _ (bytes "SIOT") (bytes "LEDON\n") (bytes "ON\n") []
    (by decide) (by decide) (by decide) (by decide) (by decide) (by decide) (by decide)
    (by decide) (by decide) (by decide)

end Q2

/-- C6 (defect of the code): from level 0, the authorized message with payload
"ON" handled twice in a row, the first call finding the bytes of an earlier
"OFF" in the local array and the second call finding what the first left
there, ends at level 0, not on; and from level 1, "OFF" followed by "ON", the
second call finding what the first left in the array, ends at level 0 although
the last message is "ON". -/
theorem repeated_on_with_stale_array :
    handle_all [(stale_off, scenario_A), (left_by stale_off (bytes "ON"), scenario_A)]
        { level := 0, effects := [] }
      = .ok { level := 0,
              effects := [Effect.publish Q2.response_topic (bytes "ONF") 0 1 0, Effect.gpio_config 4,
                          Effect.publish Q2.response_topic (bytes "ONF") 0 1 0, Effect.gpio_config 4] }
    ∧ handle_all [(zeroed, own_message "OFF" 3), (left_by zeroed (bytes "OFF"), scenario_A)]
        { level := 1, effects := [] }
      = .ok { level := 0,
              effects := [Effect.publish Q2.response_topic (bytes "OFF") 0 1 0, Effect.gpio_config 4,
                          Effect.gpio_set_level 2 0,
                          Effect.publish Q2.response_topic (bytes "ONF") 0 1 0, Effect.gpio_config 4] } := by
  decide

namespace Q2

end Q2

namespace Q2

/-- C8 (counterexample): on Scenario A with a terminated copy the publish of the
acknowledgement is the first call and gpio_set_level the last; the set does not
come before the publish. -/
theorem scenario_A_set_after_publish :
    authenticate zeroed scenario_A { level := 0, effects := [] }
      = .ok { level := 1,
              effects := [Effect.publish (bytes "SIOT/99101608/response") (bytes "ON") 0 1 0,
                          Effect.gpio_config 4, Effect.gpio_set_level 2 1] }
    ∧ set_level_precedes_publish
        [Effect.publish (bytes "SIOT/99101608/response") (bytes "ON") 0 1 0,
         Effect.gpio_config 4, Effect.gpio_set_level 2 1] = false := by
  decide

/-- C8 (amended): for every message whose claimant token is the device
identity and whose payload is "ON" or "OFF", with a terminated copy in the
local array, the calls made by authenticate are, in this order: the publish of
the payload to "SIOT/99101608/response" with len 0, qos 1 and retain 0, then
gpio_config, then gpio_set_level of pin 2 to 1 for "ON" and to 0 for "OFF".
The acknowledgement comes before the actuator is set. -/
theorem accepted_command_publishes_then_sets (g : Nat → Nat) (e : Event) (s : Device)
    (ns rest P after : List Nat)
    (htopic : e.mem.drop e.topic = ns ++ 47 :: (my_num ++ 47 :: rest))
    (hns : is_token ns) (htl : e.topic_len ≤ 200)
    (hd : e.topic + ns.length + 1 + my_num.length < e.data)
    (hP : e.mem.drop e.data = P ++ after) (hlen : e.data_len = P.length)
    (hcmd : P = bytes "ON" ∨ P = bytes "OFF") (hterm : g P.length = 0) :
    authenticate g e s
      = .ok { level := if P = bytes "ON" then 1 else 0,
              effects := s.effects ++
                [Effect.publish (bytes "SIOT/99101608/response") P 0 1 0,
                 Effect.gpio_config 4,
                 Effect.gpio_set_level 2 (if P = bytes "ON" then 1 else 0)] } := by
  have hP40 : P.length < 40 := by
    rcases hcmd with h | h <;> subst h <;> decide
  have hcut : c_cut P = P := by
    rcases hcmd with h | h <;> subst h <;> decide
  rw [authenticate_accept g e s 0 0 47 ns rest P after (by simpa using htopic) hns (Or.inr rfl)
    htl (by omega) hP hlen (by omega) (Or.inr ⟨hP40, hterm⟩), hcut]
  rcases hcmd with h | h
  · subst h; simp [control_LED, LED_PIN, response_topic]
  · subst h
    have hne : bytes "OFF" ≠ bytes "ON" := by decide
    simp [control_LED, LED_PIN, response_topic, hne]

/-- C8 (witness): the amended claim at the payload "OFF", from level 1. -/
theorem accepted_command_publishes_then_sets_witness :
    authenticate zeroed (own_message "OFF" 3) { level := 1, effects := [] }
      = .ok { level := if bytes "OFF" = bytes "ON" then 1 else 0,
              effects := [] ++
                [Effect.publish (bytes "SIOT/99101608/response") (bytes "OFF") 0 1 0,
                 Effect.gpio_config 4,
                 Effect.gpio_set_level 2 (if bytes "OFF" = bytes "ON" then 1 else 0)] } :=
  accepted_command_publishes_then_sets zeroed _ _ (bytes "SIOT") (bytes "LEDOFF") (bytes "OFF") []
    (by decide) (by decide) (by decide) (by decide) (by decide) (by decide) (Or.inr rfl)
    (by decide)

end Q2

/-- C9 (defect of the code): on the broker-connected event the Q1 handler
subscribes to "SIoT" with qos 0 and then publishes its greeting to "SIoT" with
the arguments len 0, qos 1 and retain 0, while the comment next to the call
says QoS 0 with the retain flag set. -/
theorem Q1.connected_publish_arguments (s : Device) :
    Q1.mqtt_event_handler_cb .MQTT_EVENT_CONNECTED s
      = { level := s.level,
          effects := s.effects ++
            [Effect.subscribe (bytes "SIoT") 0,
             Effect.publish (bytes "SIoT") Q1.greeting 0 1 0] } := by
  rfl

namespace Q2

end Q2
